import Mathlib

/-!
# Verification of the trackable/mediator/observer broker

A shallow embedding of `trackable.py`: the `Trackable` publish source, the
`Mediator` broker with its name-keyed registry, and the `Observer` subscriber
handle.  Python strings are modelled as `List Char`, Python dicts as ordered
association lists with first-match update (keys are unique in every reachable
dict), wall-clock time as an explicit rational parameter, and exceptions as
`Except` / explicit error components.  Observer callbacks are modelled by
their observable behaviour: whether a callback is set and on which events it
raises.
-/

namespace ObjInspect

/-- Python strings, modelled as their character lists. -/
abbrev PyStr := List Char

/-- Build a `PyStr` from a Lean string literal. -/
def str (s : String) : PyStr := s.data

/-- `key.startswith("_")`. -/
def startsUnderscore : PyStr → Bool
  | '_' :: _ => true
  | _ => false

/-- The decimal digit character for `d` (defined for `d < 10`, clamps above). -/
def digitChar (d : Nat) : Char :=
  match d with
  | 0 => '0' | 1 => '1' | 2 => '2' | 3 => '3' | 4 => '4'
  | 5 => '5' | 6 => '6' | 7 => '7' | 8 => '8' | _ => '9'

/-- Numeric value of a digit character. -/
def digitVal (c : Char) : Nat := c.toNat - 48

/-- `int(s)` on a string of decimal digits. -/
def digitsVal (l : List Char) : Nat := l.foldl (fun acc c => acc * 10 + digitVal c) 0

/-- Decimal representation of a natural number, with explicit recursion fuel
(`fuel > n` suffices since `n < 10 ^ n.succ`). -/
def natReprAux : Nat → Nat → List Char
  | 0, _ => []
  | fuel + 1, n => if n < 10 then [digitChar n] else natReprAux fuel (n / 10) ++ [digitChar (n % 10)]

/-- `str(n)` for a natural number. -/
def natRepr (n : Nat) : List Char := natReprAux (n + 1) n

/-- The maximal run of trailing digits of `s` (the match of `(\d+)$`). -/
def trailingDigits (s : PyStr) : List Char := (s.reverse.takeWhile Char.isDigit).reverse

/-- `s` with its maximal run of trailing digits removed. -/
def trailingStem (s : PyStr) : PyStr := (s.reverse.dropWhile Char.isDigit).reverse

/-- One step of the collision loop in `Mediator.add_trackable`: if the name
ends in a run of digits, increment that number (`re.sub(r"(\d+)$", ...)`),
otherwise append the literal suffix `"2"`. -/
def nextName (s : PyStr) : PyStr :=
  if trailingDigits s = [] then s ++ ['2']
  else trailingStem s ++ natRepr (digitsVal (trailingDigits s) + 1)

/-- The `while new_name in self._trackables` loop of `add_trackable`, with
explicit fuel (`taken.length + 1` iterations always suffice, since the
candidate names are pairwise distinct). -/
def resolveName (taken : List PyStr) : Nat → PyStr → PyStr
  | 0, n => n
  | fuel + 1, n => if n ∈ taken then resolveName taken fuel (nextName n) else n

/-- The head of a character list is a digit. -/
def headIsDigit : List Char → Bool
  | [] => false
  | c :: _ => c.isDigit

/-- `s` ends in a decimal digit (i.e. `re.search(r"(\d+)$", s)` matches). -/
def endsInDigit (s : PyStr) : Bool := headIsDigit s.reverse

/-! ## Ordered dictionaries (Python `dict`) as association lists -/

/-- `d.get(k)` / `d[k]`-lookup: the value at the first matching key. -/
def lookupA {α : Type} : List (PyStr × α) → PyStr → Option α
  | [], _ => none
  | p :: rest, k => if p.1 = k then some p.2 else lookupA rest k

/-- `d.get(k, dflt)`. -/
def lookupD {α : Type} (l : List (PyStr × α)) (k : PyStr) (d : α) : α := (lookupA l k).getD d

/-- `k in d`. -/
def hasKey {α : Type} (l : List (PyStr × α)) (k : PyStr) : Bool := (lookupA l k).isSome

/-- `d[k] = v`: replace the value at an existing key in place, else append. -/
def setA {α : Type} : List (PyStr × α) → PyStr → α → List (PyStr × α)
  | [], k, v => [(k, v)]
  | p :: rest, k, v => if p.1 = k then (k, v) :: rest else p :: setA rest k v

/-- `d.pop(k)`: drop the first entry with key `k`. -/
def removeA {α : Type} : List (PyStr × α) → PyStr → List (PyStr × α)
  | [], _ => []
  | p :: rest, k => if p.1 = k then rest else p :: removeA rest k

/-! ## Values, events, errors -/

/-- Python values stored in trackable fields.  Scalars are the types accepted
by the notification pipeline; `pylist` stands for a composite (list) value,
which is stored but excluded from notification. -/
inductive PyValue : Type
  | none
  | bool (b : Bool)
  | int (n : Int)
  | float (q : Rat)
  | strv (s : PyStr)
  | pylist (elems : List Int)
  deriving DecidableEq, Repr

/-- `isinstance(value, (int, float, str, bool)) or value is None`. -/
def isScalar : PyValue → Bool
  | .none | .bool _ | .int _ | .float _ | .strv _ => true
  | .pylist _ => false

/-- The `EVENT_TYPES` enumeration. -/
inductive EventType : Type
  | set_attribute
  | method_call
  | within_threshold
  | trackable_added
  | trackable_removed
  deriving DecidableEq, Repr

/-- The `value` argument carried by a notification: a scalar for
`set_attribute`, the two-element `[attributes, methods]` snapshot for
`trackable_added`, the argument tuple for `method_call`. -/
inductive EventValue : Type
  | scalar (v : PyValue)
  | snapshot (attrs : List (PyStr × PyValue)) (methods : List (PyStr × Nat))
  | callArgs (args : List PyValue)
  deriving DecidableEq

/-- One notification as passed to `Mediator.notify` / `Observer.notify`. -/
structure Event : Type where
  trackableName : PyStr
  key : PyStr
  value : EventValue
  type : EventType
  deriving DecidableEq

/-- Python exceptions surfaced by the broker.  `keyError` is the spec's
`UnknownTrackable` condition, `attributeError` its `NoSuchMethod`,
`valueError` arises from `list.remove` on a missing element. -/
inductive PyError : Type
  | keyError
  | attributeError
  | valueError
  | typeError
  deriving DecidableEq, Repr

/-! ## Time

`time.time()` readings are explicit rational parameters.  Subtraction is
spelled with `mkRat` (kernel-computable, unlike the `irreducible` `Rat.sub`);
`ratSub_eq` checks it is ordinary rational subtraction. -/

/-- Rational subtraction `a - b`, in a kernel-computable form. -/
def ratSub (a b : Rat) : Rat := mkRat (a.num * b.den - b.num * a.den) (a.den * b.den)

/-- `Trackable.UPDATES_PER_SECOND = 20`. -/
def UPDATES_PER_SECOND : Nat := 20

/-- `Trackable.UPDATE_INTERVAL = 1 / UPDATES_PER_SECOND`. -/
def UPDATE_INTERVAL : Rat := mkRat 1 UPDATES_PER_SECOND

/-! ## Trackable -/

/-- Field dictionaries: the public part of a wrapped object's `__dict__`. -/
abbrev AttrDict := List (PyStr × PyValue)

/-- The state of one `Trackable`.  Method behaviour is split by whether the
method is wrapped with the `Trackable.notify_method_call` decorator; a method
body is abstracted as a transformer of the field dictionary. -/
structure Trackable : Type where
  /-- `_name`. -/
  name : PyStr
  /-- the entries of `__dict__` (initial wrapped-object fields and every field
  stored through `__setattr__`). -/
  dict : AttrDict
  /-- `_last_update`: timestamp of the last accepted notification per key. -/
  lastUpdate : List (PyStr × Rat)
  /-- `_trackable_methods`: invocation counts. -/
  methods : List (PyStr × Nat)
  /-- `_mediators`, as indices into the world's mediator list. -/
  mediators : List Nat
  /-- `_is_timed`. -/
  isTimed : Bool
  /-- methods wrapped with `@Trackable.notify_method_call`, with their bodies. -/
  decorated : List (PyStr × (AttrDict → AttrDict))
  /-- undecorated methods of the wrapped object, with their bodies. -/
  plain : List (PyStr × (AttrDict → AttrDict))

/-- `Trackable.__init__(obj, name)`: fields copied from `obj.__dict__`,
empty `_last_update` and `_trackable_methods`, no mediators, `_is_timed`
initialised to `False`. -/
def Trackable.init (name : PyStr) (fields : AttrDict)
    (decorated plain : List (PyStr × (AttrDict → AttrDict))) : Trackable :=
  { name := name, dict := fields, lastUpdate := [], methods := [], mediators := []
    isTimed := false, decorated := decorated, plain := plain }

/-- A placeholder trackable used as the default of out-of-range list reads. -/
def dfltTrackable : Trackable := Trackable.init [] [] [] []

/-- The unconditional `super.__setattr__(self, key, value)` line of
`__setattr__`: store the value, whatever it is. -/
def Trackable.store (t : Trackable) (key : PyStr) (value : PyValue) : Trackable :=
  { t with dict := setA t.dict key value }

/-- `Trackable.__setattr__(key, value, silent)` up to (but not including) the
final `self._last_update[key] = time.time()` line: stores the value
unconditionally, then decides whether a `set_attribute` notification is sent.
Suppressed when `silent`, when the key is internal (leading `_`) or `"name"`,
when less than `UPDATE_INTERVAL` has passed since the last accepted
notification for the key (only with `_is_timed` set), or when the value is
not a scalar. -/
def Trackable.setattrStore (t : Trackable) (key : PyStr) (value : PyValue)
    (silent : Bool) (now : Rat) : Trackable × Option Event :=
  if silent then (t.store key value, none)
  else if startsUnderscore key then (t.store key value, none)
  else if key = str "name" then (t.store key value, none)
  else if ratSub now (lookupD (t.store key value).lastUpdate key 0) < UPDATE_INTERVAL
      ∧ (t.store key value).isTimed then (t.store key value, none)
  else if ¬ isScalar value then (t.store key value, none)
  else (t.store key value, some ⟨(t.store key value).name, key, .scalar value, .set_attribute⟩)

/-- The final line of `__setattr__` on the accepted path:
`self._last_update[key] = time.time()`. -/
def Trackable.commitUpdate (t : Trackable) (key : PyStr) (now : Rat) : Trackable :=
  { t with lastUpdate := setA t.lastUpdate key now }

/-- `__setattr__` in full, on the path where no observer callback raises (the
notification returns normally, so the `_last_update` write is reached). -/
def Trackable.setattr (t : Trackable) (key : PyStr) (value : PyValue)
    (silent : Bool) (now : Rat) : Trackable × Option Event :=
  match t.setattrStore key value silent now with
  | (t1, Option.none) => (t1, Option.none)
  | (t1, some e) => (t1.commitUpdate key now, some e)

/-- `get_trackable_attributes()`: the non-underscore entries of `__dict__`. -/
def Trackable.snapshotAttrs (t : Trackable) : AttrDict :=
  t.dict.filter (fun p => ¬ startsUnderscore p.1)

/-- The `self._trackable_methods[name] += 1` step of the
`notify_method_call` wrapper (with its missing-key initialisation). -/
def Trackable.bumpCount (t : Trackable) (m : PyStr) : Trackable :=
  { t with methods := setA t.methods m (lookupD t.methods m 0 + 1) }

/-- `Trackable.invoke(method_name, *args, **kwargs)` on the path where no
observer callback raises.  Attribute lookup finds stored fields first (whose
scalar values are not callable), then methods.  A decorated method's wrapper
increments the count, notifies unless `silent`, and runs the body; an
undecorated method just runs; a missing name raises `AttributeError`. -/
def Trackable.invoke (t : Trackable) (m : PyStr) (args : List PyValue)
    (silent : Bool) : Except PyError (Trackable × Option Event) :=
  if hasKey t.dict m then .error .typeError
  else match lookupA t.decorated m with
    | some body =>
      let t1 := t.bumpCount m
      let ev := if silent then Option.none else
        some ⟨t1.name, m, .callArgs args, .method_call⟩
      .ok ({ t1 with dict := body t1.dict }, ev)
    | Option.none => match lookupA t.plain m with
      | some body => .ok ({ t with dict := body t.dict }, Option.none)
      | Option.none => .error .attributeError

/-- `declare_variables(*variables)`: silent `__setattr__(var, None)` for each
variable (the timestamp argument is irrelevant on the silent path). -/
def Trackable.declareVariables (t : Trackable) (vars : List PyStr) : Trackable :=
  vars.foldl (fun t v => (t.setattr v .none true 0).1) t

/-! ## Observer and Mediator -/

/-- An `Observer`, modelled by the observable behaviour of its callback:
whether `notify_callback` is set, and on which events the callback raises. -/
structure Observer : Type where
  hasCallback : Bool
  raises : Event → Bool

/-- One `Mediator`: the name-keyed registry (trackables as indices into the
world's trackable list, modelling object references) and the observer list. -/
structure Mediator : Type where
  trackables : List (PyStr × Nat)
  observers : List Observer

/-- A fresh mediator before `__init__` registers anything. -/
def emptyMediator : Mediator := ⟨[], []⟩

/-- The `for observer in self._observers: observer.notify(...)` loop of
`Mediator.notify`, starting at observer index `i`.  Returns the indices of
observers whose callback was invoked and whether an exception escaped
(aborting the loop; observers after the first raising callback are never
notified). -/
def fanoutFrom : List Observer → Nat → Event → List Nat × Bool
  | [], _, _ => ([], false)
  | o :: rest, i, e =>
    if o.hasCallback then
      if o.raises e then ([i], true)
      else
        let r := fanoutFrom rest (i + 1) e
        (i :: r.1, r.2)
    else fanoutFrom rest (i + 1) e

/-- `Mediator.notify`: deliver one event to every observer in registration
order (until a callback raises). -/
def Mediator.fanout (med : Mediator) (e : Event) : List Nat × Bool :=
  fanoutFrom med.observers 0 e

/-- The indices (counting from `i`) of the observers that have a callback. -/
def cbIdxFrom : List Observer → Nat → List Nat
  | [], _ => []
  | o :: rest, i =>
    if o.hasCallback then i :: cbIdxFrom rest (i + 1) else cbIdxFrom rest (i + 1)

/-! ## The world: all live trackables and mediators -/

/-- A callback invocation record: `(mediator index, observer index, event)`. -/
abbrev Delivery := Nat × Nat × Event

/-- The complete mutable state: every `Trackable` and every `Mediator`
created so far, addressed by index (modelling Python object identity). -/
structure World : Type where
  trackables : List Trackable
  mediators : List Mediator

/-- `Trackable.notify_mediators`: pass one event to each subscribed mediator
in subscription order; a raising observer callback propagates and aborts the
loop over the remaining mediators. -/
def notifyMediators (meds : List Mediator) : List Nat → Event → List Delivery × Bool
  | [], _ => ([], false)
  | mid :: rest, e =>
    let r := (meds.getD mid emptyMediator).fanout e
    let recs : List Delivery := r.1.map (fun i => (mid, i, e))
    if r.2 then (recs, true)
    else
      let rr := notifyMediators meds rest e
      (recs ++ rr.1, rr.2)

/-- `Mediator.add_trackable(trackable)`: resolve a collision-free name
(while-loop with fuel `registry size + 1`), assign it back to the trackable,
insert the trackable into the registry, and via `trackable.add_mediator` add
the mediator to the trackable's list and send it one `trackable_added` event
carrying the `[attributes, methods]` snapshot. -/
def World.addTrackable (w : World) (mid tid : Nat) : World × List Delivery × Bool :=
  let med := w.mediators.getD mid emptyMediator
  let t := w.trackables.getD tid dfltTrackable
  let newName := resolveName (med.trackables.map (fun p => p.1))
    (med.trackables.length + 1) t.name
  let t1 := { t with name := newName, mediators := t.mediators ++ [mid] }
  let med1 := { med with trackables := setA med.trackables newName tid }
  let e : Event := ⟨newName, newName, .snapshot t1.snapshotAttrs t1.methods, .trackable_added⟩
  let w1 : World := ⟨w.trackables.set tid t1, w.mediators.set mid med1⟩
  let r := med1.fanout e
  (w1, r.1.map (fun i => (mid, i, e)), r.2)

/-- `Mediator.remove_trackable(trackable)`: `pop` the entry under the
trackable's current name (`KeyError` if absent, nothing mutated), then
`trackable.remove_mediator(self)` (`ValueError` if this mediator is not in
the trackable's list — the `pop` has already happened by then). -/
def World.removeTrackable (w : World) (mid tid : Nat) : World × Option PyError :=
  let med := w.mediators.getD mid emptyMediator
  let t := w.trackables.getD tid dfltTrackable
  if hasKey med.trackables t.name then
    let med1 := { med with trackables := removeA med.trackables t.name }
    let w1 : World := ⟨w.trackables, w.mediators.set mid med1⟩
    if mid ∈ t.mediators then
      let t1 := { t with mediators := t.mediators.erase mid }
      (⟨w1.trackables.set tid t1, w1.mediators⟩, Option.none)
    else (w1, some .valueError)
  else (w, some .keyError)

/-- A direct field write `trackable.key = value` (or
`__setattr__(key, value, silent)`): store, then notify every subscribed
mediator; the `_last_update` timestamp is written only if no observer
callback raised during the notification. -/
def World.directSet (w : World) (tid : Nat) (key : PyStr) (v : PyValue)
    (silent : Bool) (now : Rat) : World × List Delivery × Bool :=
  let t := w.trackables.getD tid dfltTrackable
  let r := t.setattrStore key v silent now
  let w1 : World := ⟨w.trackables.set tid r.1, w.mediators⟩
  match r.2 with
  | Option.none => (w1, [], false)
  | some e =>
    let d := notifyMediators w1.mediators r.1.mediators e
    if d.2 then (w1, d.1, true)
    else (⟨w1.trackables.set tid (r.1.commitUpdate key now), w1.mediators⟩, d.1, false)

/-- `Mediator.set_attribute(trackable_name, key, value, silent)`: registry
lookup (`KeyError` — the spec's `UnknownTrackable` — if the name is absent,
with nothing mutated and no event), then the trackable's `__setattr__`. -/
def World.setAttribute (w : World) (mid : Nat) (tname key : PyStr) (v : PyValue)
    (silent : Bool) (now : Rat) : Except PyError (World × List Delivery × Bool) :=
  match lookupA (w.mediators.getD mid emptyMediator).trackables tname with
  | Option.none => .error .keyError
  | some tid => .ok (w.directSet tid key v silent now)

/-- The world after `set_attribute` (unchanged when it raised). -/
def World.setAttributeW (w : World) (mid : Nat) (tname key : PyStr) (v : PyValue)
    (silent : Bool) (now : Rat) : World :=
  match w.setAttribute mid tname key v silent now with
  | .ok r => r.1
  | .error _ => w

/-- `trackable.invoke(m, *args, silent=silent)` on the trackable at `tid`:
fields are checked first (calling a stored scalar raises `TypeError`); a
decorated method bumps its count, then notifies unless silent (a raising
callback aborts before the body runs), then runs its body; an undecorated
method just runs; a missing name raises `AttributeError`. -/
def World.invokeOn (w : World) (tid : Nat) (m : PyStr) (args : List PyValue)
    (silent : Bool) : Except PyError (World × List Delivery × Bool) :=
  let t := w.trackables.getD tid dfltTrackable
  if hasKey t.dict m then .error .typeError
  else match lookupA t.decorated m with
    | some body =>
      let t1 := t.bumpCount m
      if silent then
        .ok (⟨w.trackables.set tid { t1 with dict := body t1.dict }, w.mediators⟩, [], false)
      else
        let e : Event := ⟨t1.name, m, .callArgs args, .method_call⟩
        let w1 : World := ⟨w.trackables.set tid t1, w.mediators⟩
        let d := notifyMediators w1.mediators t1.mediators e
        if d.2 then .ok (w1, d.1, true)
        else .ok (⟨w.trackables.set tid { t1 with dict := body t1.dict }, w.mediators⟩, d.1, false)
    | Option.none => match lookupA t.plain m with
      | some body =>
        .ok (⟨w.trackables.set tid { t with dict := body t.dict }, w.mediators⟩, [], false)
      | Option.none => .error .attributeError

/-- `Mediator.invoke_method(trackable_name, method_name, args)`: registry
lookup (`KeyError` if absent), then `invoke` on the trackable. -/
def World.invokeMethod (w : World) (mid : Nat) (tname m : PyStr) (args : List PyValue)
    (silent : Bool) : Except PyError (World × List Delivery × Bool) :=
  match lookupA (w.mediators.getD mid emptyMediator).trackables tname with
  | Option.none => .error .keyError
  | some tid => w.invokeOn tid m args silent

/-- The world after `invoke_method` (unchanged when the lookup or the
attribute access raised). -/
def World.invokeMethodW (w : World) (mid : Nat) (tname m : PyStr) (args : List PyValue)
    (silent : Bool) : World :=
  match w.invokeMethod mid tname m args silent with
  | .ok r => r.1
  | .error _ => w

/-- `Mediator.add_observer`. -/
def World.addObserver (w : World) (mid : Nat) (o : Observer) : World :=
  let med := w.mediators.getD mid emptyMediator
  ⟨w.trackables, w.mediators.set mid { med with observers := med.observers ++ [o] }⟩

/-- `Mediator.remove_observer`, by position (removal by object identity). -/
def World.removeObserver (w : World) (mid : Nat) (i : Nat) : World :=
  let med := w.mediators.getD mid emptyMediator
  ⟨w.trackables, w.mediators.set mid { med with observers := med.observers.eraseIdx i }⟩

/-- `Mediator.__init__`: start with an empty registry and observer list; when
the module-level `global_trackable_declared` flag is set, immediately
`add_trackable(global_tracker)` (`gt` is the index of the global tracker). -/
def World.newMediator (w : World) (declared : Bool) (gt : Nat) :
    World × List Delivery × Bool :=
  let w1 : World := ⟨w.trackables, w.mediators ++ [emptyMediator]⟩
  if declared then w1.addTrackable w.mediators.length gt
  else (w1, [], false)

/-! ## The two-lock idiom of `add_trackable`

`with self._lock and trackable.get_lock():` — the `with` statement acquires
exactly one context manager: the value of the expression.  Python's `a and b`
returns `b` whenever `a` is truthy, and lock objects are always truthy. -/

/-- The two lock objects mentioned in `Mediator.add_trackable`. -/
inductive LockRef : Type
  | mediatorLock
  | trackableLock
  deriving DecidableEq, Repr

/-- Python truthiness of a lock object (no `__bool__`/`__len__`, so `True`). -/
def lockTruthy : LockRef → Bool := fun _ => true

/-- Python's `a and b` on lock objects: `b` if `a` is truthy, else `a`. -/
def pyAnd (a b : LockRef) : LockRef := if lockTruthy a then b else a

/-- The locks acquired by `with e:` — exactly the one object `e` denotes. -/
def withHeldLocks (e : LockRef) : List LockRef := [e]

/-- The locks held for the duration of the registration, per the source's
`with self._lock and trackable.get_lock():` line. -/
def addTrackableHeldLocks : List LockRef :=
  withHeldLocks (pyAnd .mediatorLock .trackableLock)

/-! ## Module-level state: the global tracker and `track_vars` -/

/-- The module-level state of `trackable.py`: the
`global_trackable_declared` flag and the shared `global_tracker` object. -/
structure ModuleState : Type where
  declared : Bool
  globalTracker : Trackable

/-- Module state at import time: flag unset,
`global_tracker = Trackable(None, "global_tracker")`. -/
def initialModule : ModuleState :=
  ⟨false, Trackable.init (str "global_tracker") [] [] []⟩

/-- Decoration time of `track_vars(*to_track)` (via `track_vars_custom` with
the global tracker): `declare_variables(*to_track)` on the tracker and set
the module-level `global_trackable_declared` flag. -/
def applyTrackVars (ms : ModuleState) (vars : List PyStr) : ModuleState :=
  ⟨true, ms.globalTracker.declareVariables vars⟩

/-! ## Reachable states -/

/-- `tid` is not currently registered in any mediator's registry. -/
def Unregistered (w : World) (tid : Nat) : Prop :=
  ∀ med ∈ w.mediators, ∀ p ∈ med.trackables, p.2 ≠ tid

/-- One operation of the broker, as a relation between worlds.  Registration
steps require the trackable to be live and not currently registered anywhere
(re-registering a registered trackable is what breaks the registry
invariant). -/
inductive Step : World → World → Prop where
  | newTrackable (w : World) (name : PyStr) (fields : AttrDict)
      (decorated plain : List (PyStr × (AttrDict → AttrDict))) :
      Step w ⟨w.trackables ++ [Trackable.init name fields decorated plain], w.mediators⟩
  | newMediator (w : World) (declared : Bool) (gt : Nat)
      (h : declared = true → gt < w.trackables.length ∧ Unregistered w gt) :
      Step w (w.newMediator declared gt).1
  | register (w : World) (mid tid : Nat) (hm : mid < w.mediators.length)
      (ht : tid < w.trackables.length) (hfree : Unregistered w tid) :
      Step w (w.addTrackable mid tid).1
  | unregister (w : World) (mid tid : Nat) :
      Step w (w.removeTrackable mid tid).1
  | directSet (w : World) (tid : Nat) (key : PyStr) (v : PyValue)
      (silent : Bool) (now : Rat) :
      Step w (w.directSet tid key v silent now).1
  | setAttr (w : World) (mid : Nat) (tname key : PyStr) (v : PyValue)
      (silent : Bool) (now : Rat) :
      Step w (w.setAttributeW mid tname key v silent now)
  | invokeMethod (w : World) (mid : Nat) (tname m : PyStr) (args : List PyValue)
      (silent : Bool) :
      Step w (w.invokeMethodW mid tname m args silent)
  | addObserver (w : World) (mid : Nat) (o : Observer) :
      Step w (w.addObserver mid o)
  | removeObserver (w : World) (mid i : Nat) :
      Step w (w.removeObserver mid i)

/-- Worlds reachable from the empty world by broker operations. -/
inductive Reachable : World → Prop where
  | init : Reachable ⟨[], []⟩
  | step {w w' : World} : Reachable w → Step w w' → Reachable w'

/-- The registry invariant of one mediator: entries reference live
trackables, every key equals the current name of the trackable stored under
it, keys are unique (it is a dict), and a trackable appears in at most one
entry. -/
def RegOK (ts : List Trackable) (med : Mediator) : Prop :=
  (∀ p ∈ med.trackables, p.2 < ts.length ∧ p.1 = (ts.getD p.2 dfltTrackable).name) ∧
  (med.trackables.map (fun p => p.1)).Nodup ∧
  (med.trackables.map (fun p => p.2)).Nodup

/-- The world-wide registry invariant. -/
def Inv (w : World) : Prop := ∀ med ∈ w.mediators, RegOK w.trackables med

/-! ## Sanity checks for the time embedding -/

/-- `ratSub` is ordinary rational subtraction. -/
theorem ratSub_eq (a b : Rat) : ratSub a b = a - b := (Rat.sub_def' a b).symm

/-- `UPDATE_INTERVAL` is `1/20` of a second. -/
theorem UPDATE_INTERVAL_eq : UPDATE_INTERVAL = 1 / 20 := by
  rw [UPDATE_INTERVAL, UPDATES_PER_SECOND, Rat.mkRat_eq_div]
  norm_num

/-! ## Association-list lemmas -/

theorem mem_setA {α : Type} {l : List (PyStr × α)} {k : PyStr} {v : α} {p : PyStr × α} :
    p ∈ setA l k v → p = (k, v) ∨ p ∈ l := by
  induction l with
  | nil => intro h; simpa [setA] using h
  | cons q rest ih =>
    intro h
    by_cases hq : q.1 = k
    · simp only [setA, if_pos hq, List.mem_cons] at h
      rcases h with h | h
      · exact Or.inl h
      · exact Or.inr (List.mem_cons_of_mem _ h)
    · simp only [setA, if_neg hq, List.mem_cons] at h
      rcases h with h | h
      · exact Or.inr (h ▸ List.mem_cons_self _ _)
      · rcases ih h with h' | h'
        · exact Or.inl h'
        · exact Or.inr (List.mem_cons_of_mem _ h')

theorem keys_setA_of_has {α : Type} {l : List (PyStr × α)} {k : PyStr} {v : α} :
    hasKey l k = true → (setA l k v).map (fun p => p.1) = l.map (fun p => p.1) := by
  induction l with
  | nil => intro h; simp [hasKey, lookupA] at h
  | cons q rest ih =>
    intro h
    by_cases hq : q.1 = k
    · simp [setA, if_pos hq, hq]
    · simp only [hasKey, lookupA, if_neg hq] at h
      simp [setA, if_neg hq, ih h]

theorem keys_setA_of_not_has {α : Type} {l : List (PyStr × α)} {k : PyStr} {v : α} :
    hasKey l k = false → (setA l k v).map (fun p => p.1) = l.map (fun p => p.1) ++ [k] := by
  induction l with
  | nil => intro _; simp [setA]
  | cons q rest ih =>
    intro h
    by_cases hq : q.1 = k
    · simp [hasKey, lookupA, if_pos hq] at h
    · simp only [hasKey, lookupA, if_neg hq] at h
      simp [setA, if_neg hq, ih h]

theorem lookupA_ne_none_of_mem {α : Type} {l : List (PyStr × α)} {p : PyStr × α} :
    p ∈ l → lookupA l p.1 ≠ none := by
  induction l with
  | nil => intro hp; cases hp
  | cons q rest ih =>
    intro hp
    rcases List.mem_cons.1 hp with hp | hp
    · subst hp; simp [lookupA]
    · by_cases hq : q.1 = p.1
      · simp [lookupA, hq]
      · simpa [lookupA, hq] using ih hp

theorem mem_keys_setA {α : Type} {l : List (PyStr × α)} {k : PyStr} {v : α} {x : PyStr}
    (h : x ∈ (setA l k v).map (fun p => p.1)) :
    x ∈ l.map (fun p => p.1) ∨ x = k := by
  cases hk : hasKey l k with
  | true => exact Or.inl (keys_setA_of_has (v := v) hk ▸ h)
  | false =>
    rw [keys_setA_of_not_has (v := v) hk] at h
    rcases List.mem_append.1 h with h | h
    · exact Or.inl h
    · exact Or.inr (by simpa using h)

theorem keys_nodup_setA {α : Type} {l : List (PyStr × α)} {k : PyStr} {v : α}
    (h : (l.map (fun p => p.1)).Nodup) : ((setA l k v).map (fun p => p.1)).Nodup := by
  cases hk : hasKey l k with
  | true => rw [keys_setA_of_has hk]; exact h
  | false =>
    rw [keys_setA_of_not_has hk]
    refine List.Nodup.append h (List.nodup_singleton k) ?_
    intro x hx hx'
    have hxk : x = k := by simpa using hx'
    subst hxk
    rcases List.mem_map.1 hx with ⟨p, hp, hpx⟩
    have hne : lookupA l p.1 ≠ none := lookupA_ne_none_of_mem hp
    rw [hpx] at hne
    rw [hasKey] at hk
    cases hlk : lookupA l x with
    | none => exact hne hlk
    | some a => rw [hlk] at hk; simp at hk

theorem mem_vals_setA {α : Type} {l : List (PyStr × α)} {k : PyStr} {v : α} {x : α}
    (h : x ∈ (setA l k v).map (fun p => p.2)) :
    x ∈ l.map (fun p => p.2) ∨ x = v := by
  rcases List.mem_map.1 h with ⟨p, hp, hpx⟩
  rcases mem_setA hp with h' | h'
  · subst h'; exact Or.inr hpx.symm
  · exact Or.inl (List.mem_map.2 ⟨p, h', hpx⟩)

theorem vals_nodup_setA {α : Type} [DecidableEq α] {l : List (PyStr × α)} {k : PyStr} {v : α}
    (h : (l.map (fun p => p.2)).Nodup) (hv : v ∉ l.map (fun p => p.2)) :
    ((setA l k v).map (fun p => p.2)).Nodup := by
  induction l with
  | nil => simp [setA]
  | cons q rest ih =>
    by_cases hq : q.1 = k
    · simp only [setA, if_pos hq, List.map_cons, List.nodup_cons] at h ⊢
      refine ⟨fun hm => hv ?_, h.2⟩
      simp only [List.map_cons, List.mem_cons]
      exact Or.inr hm
    · simp only [setA, if_neg hq, List.map_cons, List.nodup_cons] at h ⊢
      have hv' : v ∉ rest.map (fun p => p.2) := fun hm => hv (by simp [hm])
      refine ⟨fun hm => ?_, ih h.2 hv'⟩
      rcases mem_vals_setA hm with h' | h'
      · exact h.1 h'
      · exact hv (h' ▸ List.mem_map.2 ⟨q, List.mem_cons_self _ _, rfl⟩)

theorem lookupA_setA_self {α : Type} (l : List (PyStr × α)) (k : PyStr) (v : α) :
    lookupA (setA l k v) k = some v := by
  induction l with
  | nil => simp [setA, lookupA]
  | cons q rest ih =>
    by_cases hq : q.1 = k
    · simp [setA, if_pos hq, lookupA]
    · simp [setA, if_neg hq, lookupA, hq, ih]

theorem lookupD_setA_self {α : Type} (l : List (PyStr × α)) (k : PyStr) (v d : α) :
    lookupD (setA l k v) k d = v := by
  unfold lookupD
  rw [lookupA_setA_self]
  rfl

theorem removeA_sublist {α : Type} (l : List (PyStr × α)) (k : PyStr) :
    (removeA l k).Sublist l := by
  induction l with
  | nil => exact List.Sublist.refl _
  | cons q rest ih =>
    by_cases hq : q.1 = k
    · simp only [removeA, if_pos hq]
      exact List.sublist_cons_self q rest
    · simp only [removeA, if_neg hq]
      exact List.Sublist.cons₂ q ih

/-! ## `List.getD` helpers -/

theorem getD_set_self {α : Type} {l : List α} {i : Nat} (a d : α) (h : i < l.length) :
    (l.set i a).getD i d = a := by
  simp [List.getD_eq_getElem?_getD, List.getElem?_set_self, h]

theorem getD_set_ne {α : Type} {l : List α} {i j : Nat} (a d : α) (h : i ≠ j) :
    (l.set i a).getD j d = l.getD j d := by
  simp [List.getD_eq_getElem?_getD, List.getElem?_set_ne h]

theorem getD_append_left {α : Type} {l l' : List α} {j : Nat} (d : α) (h : j < l.length) :
    (l ++ l').getD j d = l.getD j d := by
  rw [List.getD_eq_getElem?_getD, List.getD_eq_getElem?_getD, List.getElem?_append, if_pos h]

/-! ## Name-resolution lemmas -/

theorem takeWhile_rev_nil {s : PyStr} (h : endsInDigit s = false) :
    s.reverse.takeWhile Char.isDigit = [] := by
  unfold endsInDigit at h
  cases hs : s.reverse with
  | nil => simp
  | cons c r =>
    rw [hs] at h
    simp only [headIsDigit] at h
    simp [List.takeWhile_cons, h]

theorem dropWhile_rev_eq {s : PyStr} (h : endsInDigit s = false) :
    s.reverse.dropWhile Char.isDigit = s.reverse := by
  unfold endsInDigit at h
  cases hs : s.reverse with
  | nil => simp
  | cons c r =>
    rw [hs] at h
    simp only [headIsDigit] at h
    simp [List.dropWhile_cons, h]

theorem trailingDigits_eq_nil {s : PyStr} (h : endsInDigit s = false) :
    trailingDigits s = [] := by
  unfold trailingDigits
  rw [takeWhile_rev_nil h]
  rfl

theorem trailingStem_eq_self {s : PyStr} (h : endsInDigit s = false) :
    trailingStem s = s := by
  unfold trailingStem
  rw [dropWhile_rev_eq h, List.reverse_reverse]

/-- A name with no trailing digit gets the literal suffix `"2"`. -/
theorem nextName_no_digit {s : PyStr} (h : endsInDigit s = false) :
    nextName s = s ++ ['2'] := by
  unfold nextName
  rw [trailingDigits_eq_nil h, if_pos rfl]

theorem takeWhile_append_all {xs ys : List Char} :
    (∀ c ∈ xs, Char.isDigit c = true) →
    (xs ++ ys).takeWhile Char.isDigit = xs ++ ys.takeWhile Char.isDigit := by
  induction xs with
  | nil => intro _; rfl
  | cons c r ih =>
    intro h
    have hc : Char.isDigit c = true := h c (List.mem_cons_self _ _)
    simp only [List.cons_append, List.takeWhile_cons, hc, if_true]
    rw [ih (fun x hx => h x (List.mem_cons_of_mem _ hx))]

theorem dropWhile_append_all {xs ys : List Char} :
    (∀ c ∈ xs, Char.isDigit c = true) →
    (xs ++ ys).dropWhile Char.isDigit = ys.dropWhile Char.isDigit := by
  induction xs with
  | nil => intro _; rfl
  | cons c r ih =>
    intro h
    have hc : Char.isDigit c = true := h c (List.mem_cons_self _ _)
    simp only [List.cons_append, List.dropWhile_cons, hc, if_true]
    exact ih (fun x hx => h x (List.mem_cons_of_mem _ hx))

/-- A name consisting of a digit-free stem followed by a nonempty digit run
is incremented: the run is parsed, incremented and re-rendered. -/
theorem nextName_append_digits {s ds : PyStr} (hs : endsInDigit s = false)
    (hne : ds ≠ []) (hds : ∀ c ∈ ds, Char.isDigit c = true) :
    nextName (s ++ ds) = s ++ natRepr (digitsVal ds + 1) := by
  have hd : trailingDigits (s ++ ds) = ds := by
    unfold trailingDigits
    rw [List.reverse_append,
      takeWhile_append_all (fun c hc => hds c (List.mem_reverse.1 hc)),
      takeWhile_rev_nil hs, List.append_nil, List.reverse_reverse]
  have hst : trailingStem (s ++ ds) = s := by
    unfold trailingStem
    rw [List.reverse_append,
      dropWhile_append_all (fun c hc => hds c (List.mem_reverse.1 hc)),
      dropWhile_rev_eq hs, List.reverse_reverse]
  unfold nextName
  rw [hd, hst, if_neg hne]

/-! ## Fan-out lemmas -/

theorem cbIdxFrom_lt {l : List Observer} :
    ∀ {i j : Nat}, j ∈ cbIdxFrom l i → j < i + l.length := by
  induction l with
  | nil => intro i j h; cases h
  | cons o rest ih =>
    intro i j h
    by_cases hcb : o.hasCallback
    · simp only [cbIdxFrom, hcb, if_true, List.mem_cons] at h
      rcases h with h | h
      · subst h; simp
      · have := ih h; simp only [List.length_cons]; omega
    · simp only [cbIdxFrom, hcb, if_false] at h
      have := ih h; simp only [List.length_cons]; omega

/-- If every callback before `o` returns and `o`'s callback raises, the
fan-out loop invokes exactly the callbacks of `pre`, then `o`'s, and stops:
the exception escapes and no later observer is notified. -/
theorem fanoutFrom_first_raiser {e : Event} {o : Observer}
    (hcb : o.hasCallback = true) (hr : o.raises e = true) :
    ∀ (pre post : List Observer) (i : Nat),
      (∀ o' ∈ pre, o'.raises e = false) →
      fanoutFrom (pre ++ o :: post) i e = (cbIdxFrom pre i ++ [i + pre.length], true) := by
  intro pre
  induction pre with
  | nil =>
    intro post i _
    simp [fanoutFrom, cbIdxFrom, hcb, hr]
  | cons o' rest ih =>
    intro post i hpre
    have ho' : o'.raises e = false := hpre o' (List.mem_cons_self _ _)
    have htail := ih post (i + 1) (fun x hx => hpre x (List.mem_cons_of_mem _ hx))
    have harith : i + 1 + rest.length = i + (rest.length + 1) := by omega
    by_cases hcb' : o'.hasCallback
    · simp [fanoutFrom, hcb', ho', htail, cbIdxFrom, harith]
    · simp [fanoutFrom, hcb', ho', htail, cbIdxFrom, harith]

/-! ## Lemmas about `setattr` -/

theorem setattr_emit {t : Trackable} {k : PyStr} {v : PyValue} {now : Rat}
    (hk1 : startsUnderscore k = false) (hk2 : k ≠ str "name")
    (hv : isScalar v = true)
    (htime : ¬ (ratSub now (lookupD t.lastUpdate k 0) < UPDATE_INTERVAL
      ∧ t.isTimed = true)) :
    t.setattr k v false now =
      ({ t with dict := setA t.dict k v, lastUpdate := setA t.lastUpdate k now },
        some ⟨t.name, k, .scalar v, .set_attribute⟩) := by
  unfold Trackable.setattr Trackable.setattrStore Trackable.store Trackable.commitUpdate
  rw [if_neg (by simp), if_neg (by simp [hk1]), if_neg hk2, if_neg htime,
    if_neg (by simp [hv])]

theorem setattr_suppressed_time {t : Trackable} {k : PyStr} {v : PyValue} {now : Rat}
    (hk1 : startsUnderscore k = false) (hk2 : k ≠ str "name")
    (htime : ratSub now (lookupD t.lastUpdate k 0) < UPDATE_INTERVAL)
    (htimed : t.isTimed = true) :
    t.setattr k v false now = ({ t with dict := setA t.dict k v }, Option.none) := by
  unfold Trackable.setattr Trackable.setattrStore Trackable.store
  rw [if_neg (by simp), if_neg (by simp [hk1]), if_neg hk2, if_pos ⟨htime, htimed⟩]

/-! ## Lemmas about `invoke` -/

theorem invoke_decorated {t : Trackable} {m : PyStr} {body : AttrDict → AttrDict}
    (args : List PyValue) (hd : lookupA t.decorated m = some body)
    (hk : hasKey t.dict m = false) :
    t.invoke m args false =
      .ok ({ t.bumpCount m with dict := body (t.bumpCount m).dict },
        some ⟨t.name, m, .callArgs args, .method_call⟩) := by
  unfold Trackable.invoke
  rw [if_neg (by simp [hk]), hd]
  rfl

theorem invoke_decorated_silent {t : Trackable} {m : PyStr} {body : AttrDict → AttrDict}
    (args : List PyValue) (hd : lookupA t.decorated m = some body)
    (hk : hasKey t.dict m = false) :
    t.invoke m args true =
      .ok ({ t.bumpCount m with dict := body (t.bumpCount m).dict }, Option.none) := by
  unfold Trackable.invoke
  rw [if_neg (by simp [hk]), hd]
  rfl

/-! ## Small list helpers -/

theorem getD_append_self {α : Type} (l : List α) (x d : α) :
    (l ++ [x]).getD l.length d = x := by
  induction l with
  | nil => rfl
  | cons a r ih => simp [List.getD_cons_succ, ih]

theorem set_append_self {α : Type} (l : List α) (x y : α) :
    (l ++ [x]).set l.length y = l ++ [y] := by
  induction l with
  | nil => rfl
  | cons a r ih => simp [List.set, ih]

/-! ## Preservation of the registry invariant -/

/-- `RegOK` only looks at the registry. -/
theorem regOK_trackables_eq {ts : List Trackable} {m1 m2 : Mediator}
    (h : m1.trackables = m2.trackables) (hr : RegOK ts m1) : RegOK ts m2 := by
  rcases hr with ⟨a, b, c⟩
  rw [h] at a b c
  exact ⟨a, b, c⟩

/-- The mediator stored at a valid index satisfies the invariant; an
out-of-range default read trivially does. -/
theorem regOK_getD {w : World} (mid : Nat) (hinv : Inv w) :
    RegOK w.trackables (w.mediators.getD mid emptyMediator) := by
  by_cases hb : mid < w.mediators.length
  · have hmem : w.mediators.getD mid emptyMediator ∈ w.mediators := by
      rw [List.getD_eq_getElem _ _ hb]; exact List.getElem_mem hb
    exact hinv _ hmem
  · rw [List.getD_eq_default _ _ (Nat.le_of_not_lt hb)]
    exact ⟨fun p hp => absurd hp (List.not_mem_nil p), List.nodup_nil, List.nodup_nil⟩

/-- Entries of the mediator stored at an index never reference an
unregistered trackable. -/
theorem unregistered_getD {w : World} {tid : Nat} (mid : Nat)
    (hfree : Unregistered w tid) :
    ∀ p ∈ (w.mediators.getD mid emptyMediator).trackables, p.2 ≠ tid := by
  by_cases hb : mid < w.mediators.length
  · have hmem : w.mediators.getD mid emptyMediator ∈ w.mediators := by
      rw [List.getD_eq_getElem _ _ hb]; exact List.getElem_mem hb
    exact hfree _ hmem
  · rw [List.getD_eq_default _ _ (Nat.le_of_not_lt hb)]
    exact fun p hp => absurd hp (List.not_mem_nil p)

/-- Replacing a trackable with one of the same name preserves the
invariant. -/
theorem inv_set_of_name_eq {w : World} {tid : Nat} {t' : Trackable}
    (hname : tid < w.trackables.length →
      t'.name = (w.trackables.getD tid dfltTrackable).name)
    (hinv : Inv w) : Inv ⟨w.trackables.set tid t', w.mediators⟩ := by
  by_cases hb : tid < w.trackables.length
  · intro med hmed
    rcases hinv med hmed with ⟨hkn, hknd, htnd⟩
    refine ⟨fun p hp => ?_, hknd, htnd⟩
    rcases hkn p hp with ⟨hlt, hk⟩
    refine ⟨by simpa using hlt, ?_⟩
    by_cases htid : tid = p.2
    · rw [← htid, getD_set_self t' _ hb, hname hb, htid]
      exact hk
    · rw [getD_set_ne t' _ htid]
      exact hk
  · rw [List.set_eq_of_length_le (Nat.le_of_not_lt hb)]
    intro med hmed
    exact hinv med hmed

/-- Replacing a mediator's observer list preserves the invariant. -/
theorem inv_set_observers {w : World} {mid : Nat} {obs : List Observer}
    (hinv : Inv w) :
    Inv ⟨w.trackables,
      w.mediators.set mid
        { w.mediators.getD mid emptyMediator with observers := obs }⟩ := by
  intro med hmed
  rcases List.mem_or_eq_of_mem_set hmed with h | h
  · exact hinv med h
  · subst h
    exact regOK_trackables_eq rfl (regOK_getD mid hinv)

theorem inv_newTrackable {w : World} (t : Trackable) (hinv : Inv w) :
    Inv ⟨w.trackables ++ [t], w.mediators⟩ := by
  intro med hmed
  rcases hinv med hmed with ⟨hkn, hknd, htnd⟩
  refine ⟨fun p hp => ?_, hknd, htnd⟩
  rcases hkn p hp with ⟨hlt, hk⟩
  refine ⟨by simpa using Nat.lt_succ_of_lt hlt, ?_⟩
  rw [getD_append_left _ hlt]; exact hk

theorem inv_addTrackable {w : World} {mid tid : Nat}
    (ht : tid < w.trackables.length) (hfree : Unregistered w tid)
    (hinv : Inv w) : Inv (w.addTrackable mid tid).1 := by
  intro med hmed
  simp only [World.addTrackable] at hmed ⊢
  rcases List.mem_or_eq_of_mem_set hmed with h | h
  · -- an untouched mediator: none of its entries reference `tid`
    rcases hinv med h with ⟨hkn, hknd, htnd⟩
    refine ⟨fun p hp => ?_, hknd, htnd⟩
    rcases hkn p hp with ⟨hlt, hk⟩
    have hne : p.2 ≠ tid := hfree med h p hp
    refine ⟨by simpa using hlt, ?_⟩
    rw [getD_set_ne _ _ (fun hh => hne hh.symm)]
    exact hk
  · -- the registering mediator
    subst h
    rcases regOK_getD mid hinv with ⟨hkn, hknd, htnd⟩
    have hfree' := unregistered_getD mid hfree
    refine ⟨fun p hp => ?_, keys_nodup_setA hknd, ?_⟩
    · rcases mem_setA hp with h | h
      · subst h
        refine ⟨by simpa using ht, ?_⟩
        rw [getD_set_self _ _ ht]
      · rcases hkn p h with ⟨hlt, hk⟩
        refine ⟨by simpa using hlt, ?_⟩
        rw [getD_set_ne _ _ (fun hh => hfree' p h hh.symm)]
        exact hk
    · refine vals_nodup_setA htnd (fun hmem => ?_)
      rcases List.mem_map.1 hmem with ⟨p, hp, hpx⟩
      exact hfree' p hp hpx

/-- The first component of `setattrStore` is the trackable with the value
stored; in particular the name is untouched. -/
theorem setattrStore_fst (t : Trackable) (key : PyStr) (v : PyValue)
    (silent : Bool) (now : Rat) :
    (t.setattrStore key v silent now).1 = t.store key v := by
  unfold Trackable.setattrStore
  repeat' split
  all_goals rfl

theorem inv_removeTrackable {w : World} (mid tid : Nat) (hinv : Inv w) :
    Inv (w.removeTrackable mid tid).1 := by
  have hrem : ∀ obs,
      Inv ⟨w.trackables,
        w.mediators.set mid
          { trackables :=
              removeA (w.mediators.getD mid emptyMediator).trackables
                (w.trackables.getD tid dfltTrackable).name,
            observers := obs }⟩ := by
    intro obs med hmed
    rcases List.mem_or_eq_of_mem_set hmed with h | h
    · exact hinv med h
    · subst h
      rcases regOK_getD mid hinv with ⟨hkn, hknd, htnd⟩
      have hsub := removeA_sublist
        (w.mediators.getD mid emptyMediator).trackables
        (w.trackables.getD tid dfltTrackable).name
      exact ⟨fun p hp => hkn p (hsub.mem hp),
        hknd.sublist (hsub.map (fun p => p.1)),
        htnd.sublist (hsub.map (fun p => p.2))⟩
  unfold World.removeTrackable
  by_cases hk : hasKey (w.mediators.getD mid emptyMediator).trackables
      (w.trackables.getD tid dfltTrackable).name
  · rw [if_pos hk]
    by_cases hmid : mid ∈ (w.trackables.getD tid dfltTrackable).mediators
    · rw [if_pos hmid]
      exact inv_set_of_name_eq (fun _ => rfl) (hrem _)
    · rw [if_neg hmid]
      exact hrem _
  · rw [if_neg hk]
    exact hinv

theorem inv_directSet {w : World} (tid : Nat) (key : PyStr) (v : PyValue)
    (silent : Bool) (now : Rat) (hinv : Inv w) :
    Inv (w.directSet tid key v silent now).1 := by
  unfold World.directSet
  have hname : tid < w.trackables.length →
      ((w.trackables.getD tid dfltTrackable).setattrStore key v silent now).1.name
      = (w.trackables.getD tid dfltTrackable).name := fun _ => by
    rw [setattrStore_fst]
    rfl
  have h1 : Inv (⟨w.trackables.set tid
      ((w.trackables.getD tid dfltTrackable).setattrStore key v silent now).1,
      w.mediators⟩ : World) := inv_set_of_name_eq hname hinv
  cases hev : ((w.trackables.getD tid dfltTrackable).setattrStore key v silent now).2 with
  | none =>
    simp only [hev]
    exact h1
  | some e =>
    simp only [hev]
    split
    · exact h1
    · refine inv_set_of_name_eq (w := ⟨_, _⟩) (fun hb => ?_) h1
      have hb' : tid < w.trackables.length := by simpa using hb
      show ((((w.trackables.getD tid dfltTrackable).setattrStore key v silent
        now).1).commitUpdate key now).name = _
      rw [getD_set_self _ _ hb']
      rfl

theorem inv_invokeOn {w : World} (tid : Nat) (m : PyStr) (args : List PyValue)
    (silent : Bool) (hinv : Inv w) :
    ∀ r, w.invokeOn tid m args silent = .ok r → Inv r.1 := by
  intro r hr
  simp only [World.invokeOn] at hr
  split at hr
  · cases hr
  · split at hr
    · split at hr
      · cases hr
        exact inv_set_of_name_eq (fun _ => rfl) hinv
      · split at hr
        · cases hr
          exact inv_set_of_name_eq (fun _ => rfl) hinv
        · cases hr
          exact inv_set_of_name_eq (fun _ => rfl) hinv
    · split at hr
      · cases hr
        exact inv_set_of_name_eq (fun _ => rfl) hinv
      · cases hr

theorem inv_setAttributeW {w : World} (mid : Nat) (tname key : PyStr) (v : PyValue)
    (silent : Bool) (now : Rat) (hinv : Inv w) :
    Inv (w.setAttributeW mid tname key v silent now) := by
  unfold World.setAttributeW World.setAttribute
  cases lookupA (w.mediators.getD mid emptyMediator).trackables tname with
  | none => exact hinv
  | some tid => exact inv_directSet tid key v silent now hinv

theorem inv_invokeMethodW {w : World} (mid : Nat) (tname m : PyStr)
    (args : List PyValue) (silent : Bool) (hinv : Inv w) :
    Inv (w.invokeMethodW mid tname m args silent) := by
  unfold World.invokeMethodW World.invokeMethod
  cases lookupA (w.mediators.getD mid emptyMediator).trackables tname with
  | none => exact hinv
  | some tid =>
    show Inv (match w.invokeOn tid m args silent with
      | .ok r => r.1
      | .error _ => w)
    cases hr : w.invokeOn tid m args silent with
    | error e => exact hinv
    | ok r => exact inv_invokeOn tid m args silent hinv r hr

theorem inv_addObserver {w : World} (mid : Nat) (o : Observer) (hinv : Inv w) :
    Inv (w.addObserver mid o) :=
  inv_set_observers hinv

theorem inv_removeObserver {w : World} (mid i : Nat) (hinv : Inv w) :
    Inv (w.removeObserver mid i) :=
  inv_set_observers hinv

theorem inv_append_mediator {w : World} (hinv : Inv w) :
    Inv ⟨w.trackables, w.mediators ++ [emptyMediator]⟩ := by
  intro med hmed
  rcases List.mem_append.1 hmed with h | h
  · exact hinv med h
  · have h' : med = emptyMediator := by simpa using h
    subst h'
    exact ⟨fun p hp => absurd hp (List.not_mem_nil p), List.nodup_nil, List.nodup_nil⟩

theorem inv_newMediator {w : World} {declared : Bool} {gt : Nat}
    (h : declared = true → gt < w.trackables.length ∧ Unregistered w gt)
    (hinv : Inv w) : Inv (w.newMediator declared gt).1 := by
  unfold World.newMediator
  cases declared with
  | false => exact inv_append_mediator hinv
  | true =>
    rcases h rfl with ⟨hgt, hfree⟩
    rw [if_pos rfl]
    refine inv_addTrackable (w := ⟨w.trackables, w.mediators ++ [emptyMediator]⟩)
      hgt ?_ (inv_append_mediator hinv)
    intro med hmed p hp
    rcases List.mem_append.1 hmed with hm | hm
    · exact hfree med hm p hp
    · have h' : med = emptyMediator := by simpa using hm
      subst h'
      exact absurd hp (List.not_mem_nil p)

/-- Every reachable world (where registration is only performed on
trackables not currently registered anywhere) satisfies the registry
invariant. -/
theorem inv_of_reachable {w : World} (h : Reachable w) : Inv w := by
  induction h with
  | init => exact fun med hmed => absurd hmed (List.not_mem_nil med)
  | step _ hstep ih =>
    cases hstep with
    | newTrackable name fields decorated plain => exact inv_newTrackable _ ih
    | newMediator declared gt h => exact inv_newMediator h ih
    | register mid tid hm ht hfree => exact inv_addTrackable ht hfree ih
    | unregister mid tid => exact inv_removeTrackable mid tid ih
    | directSet tid key v silent now => exact inv_directSet tid key v silent now ih
    | setAttr mid tname key v silent now =>
      exact inv_setAttributeW mid tname key v silent now ih
    | invokeMethod mid tname m args silent =>
      exact inv_invokeMethodW mid tname m args silent ih
    | addObserver mid o => exact inv_addObserver mid o ih
    | removeObserver mid i => exact inv_removeObserver mid i ih

/-! ## The claims -/

/-- C1, counterexample.  As stated, the claim fails on the code: `_is_timed`
is initialised to `False` and never set anywhere, so the interval check never
suppresses anything.  On a freshly constructed `Trackable`, two non-silent
scalar writes to `"x"` less than `1/20` second apart (`ratSub` is rational
subtraction) each produce an accepted `set_attribute` notification — two, not
at most one. -/
theorem C1_counterexample :
    (ratSub (mkRat 41 40) 1 < UPDATE_INTERVAL) ∧
    (Trackable.init (str "t") [] [] []).isTimed = false ∧
    ((Trackable.init (str "t") [] [] []).setattr (str "x") (.int 1) false 1).2
      = some ⟨str "t", str "x", .scalar (.int 1), .set_attribute⟩ ∧
    (((Trackable.init (str "t") [] [] []).setattr (str "x") (.int 1) false 1).1.setattr
        (str "x") (.int 2) false (mkRat 41 40)).2
      = some ⟨str "t", str "x", .scalar (.int 2), .set_attribute⟩ := by
  decide

/-- C1 (amended): rate limiting behaves as claimed only when the trackable's
`_is_timed` flag is set (the constructor leaves it unset and nothing in the
source ever sets it).  With `_is_timed` true: a first accepted write to `k`
notifies; a second write within `UPDATE_INTERVAL` of it is suppressed; a
third write after the interval has elapsed notifies again, carrying the
latest value. -/
theorem C1_rateLimiting (t : Trackable) (k : PyStr) (v1 v2 v3 : PyValue)
    (t0 t1 t2 : Rat)
    (htimed : t.isTimed = true)
    (hk1 : startsUnderscore k = false) (hk2 : k ≠ str "name")
    (hv1 : isScalar v1 = true) (hv3 : isScalar v3 = true)
    (hfirst : ¬ ratSub t0 (lookupD t.lastUpdate k 0) < UPDATE_INTERVAL)
    (hsecond : ratSub t1 t0 < UPDATE_INTERVAL)
    (hthird : ¬ ratSub t2 t0 < UPDATE_INTERVAL) :
    (t.setattr k v1 false t0).2 = some ⟨t.name, k, .scalar v1, .set_attribute⟩ ∧
    ((t.setattr k v1 false t0).1.setattr k v2 false t1).2 = Option.none ∧
    (((t.setattr k v1 false t0).1.setattr k v2 false t1).1.setattr k v3 false t2).2
      = some ⟨t.name, k, .scalar v3, .set_attribute⟩ := by
  have hlook : lookupD (setA t.lastUpdate k t0) k (0 : Rat) = t0 := by
    unfold lookupD
    rw [lookupA_setA_self]
    rfl
  have h1 := @setattr_emit t k v1 t0 hk1 hk2 hv1
    (fun hc => hfirst hc.1)
  have h2 := @setattr_suppressed_time
    { t with dict := setA t.dict k v1, lastUpdate := setA t.lastUpdate k t0 }
    k v2 t1 hk1 hk2
    (by show ratSub t1 (lookupD (setA t.lastUpdate k t0) k 0) < UPDATE_INTERVAL
        rw [hlook]; exact hsecond)
    htimed
  have h3 := @setattr_emit
    { t with
        dict := setA (setA t.dict k v1) k v2, lastUpdate := setA t.lastUpdate k t0 }
    k v3 t2 hk1 hk2 hv3
    (fun hc => hthird (by
      have := hc.1
      rw [show lookupD (setA t.lastUpdate k t0) k (0 : Rat) = t0 from hlook] at this
      exact this))
  exact ⟨by rw [h1], by simp only [h1, h2], by simp only [h1, h2, h3]⟩

/-- Witness for C1 (amended): a timed trackable, writes at times 1, 1 and 2
seconds with the interval `1/20`. -/
theorem C1_rateLimiting_witness :
    (¬ ratSub 1 (lookupD ({ Trackable.init (str "t") [] [] [] with
        isTimed := true } : Trackable).lastUpdate (str "x") 0) < UPDATE_INTERVAL) ∧
    (ratSub 1 1 < UPDATE_INTERVAL) ∧ (¬ ratSub 2 1 < UPDATE_INTERVAL) ∧
    ((({ Trackable.init (str "t") [] [] [] with isTimed := true } : Trackable).setattr
        (str "x") (.int 1) false 1).2
      = some ⟨str "t", str "x", .scalar (.int 1), .set_attribute⟩ ∧
    ((({ Trackable.init (str "t") [] [] [] with isTimed := true } : Trackable).setattr
        (str "x") (.int 1) false 1).1.setattr (str "x") (.int 2) false 1).2
      = Option.none ∧
    (((({ Trackable.init (str "t") [] [] [] with isTimed := true } : Trackable).setattr
        (str "x") (.int 1) false 1).1.setattr (str "x") (.int 2) false 1).1.setattr
        (str "x") (.int 3) false 2).2
      = some ⟨str "t", str "x", .scalar (.int 3), .set_attribute⟩) :=
  ⟨by decide, by decide, by decide,
    C1_rateLimiting { Trackable.init (str "t") [] [] [] with isTimed := true }
      (str "x") (.int 1) (.int 2) (.int 3) 1 1 2 rfl (by decide) (by decide)
      (by decide) (by decide) (by decide) (by decide) (by decide)⟩

/-- C2: registering the same requested name three times yields registry keys
`n`, `n2`, `n3` and assigns each resolved name back to the trackable; a name
already ending in digits has its numeric suffix incremented instead
(registering `"a1"` twice yields keys `"a1"`, `"a2"`). -/
theorem C2_nameCollision (n : PyStr) (hn : endsInDigit n = false) :
    (let w0 : World := ⟨[Trackable.init n [] [] [], Trackable.init n [] [] [],
        Trackable.init n [] [] []], [emptyMediator]⟩
     let w3 := (((w0.addTrackable 0 0).1.addTrackable 0 1).1.addTrackable 0 2).1
     ((w3.mediators.getD 0 emptyMediator).trackables.map (fun p => p.1)
        = [n, n ++ ['2'], n ++ ['3']]) ∧
     w3.trackables.map Trackable.name = [n, n ++ ['2'], n ++ ['3']]) ∧
    (let u0 : World := ⟨[Trackable.init (str "a1") [] [] [],
        Trackable.init (str "a1") [] [] []], [emptyMediator]⟩
     let u2 := ((u0.addTrackable 0 0).1.addTrackable 0 1).1
     ((u2.mediators.getD 0 emptyMediator).trackables.map (fun p => p.1)
        = [str "a1", str "a2"]) ∧
     u2.trackables.map Trackable.name = [str "a1", str "a2"]) := by
  refine ⟨?_, by constructor <;> rfl⟩
  have h2 : nextName n = n ++ ['2'] := nextName_no_digit hn
  have h3 : nextName (n ++ ['2']) = n ++ ['3'] := by
    have h := @nextName_append_digits n ['2'] hn (by decide) (by decide)
    rw [h]; rfl
  have r1 : resolveName [] 1 n = n := by simp [resolveName]
  have r2 : resolveName [n] 2 n = n ++ ['2'] := by simp [resolveName, h2]
  have r3 : resolveName [n, n ++ ['2']] 3 n = n ++ ['3'] := by simp [resolveName, h2, h3]
  have e1 : ((⟨[Trackable.init n [] [] [], Trackable.init n [] [] [],
      Trackable.init n [] [] []], [emptyMediator]⟩ : World).addTrackable 0 0).1 =
      ⟨[{ Trackable.init n [] [] [] with mediators := [0] }, Trackable.init n [] [] [],
        Trackable.init n [] [] []], [⟨[(n, 0)], []⟩]⟩ := by
    simp [World.addTrackable, r1, setA, emptyMediator, Trackable.init]
  have e2 : ((⟨[{ Trackable.init n [] [] [] with mediators := [0] },
      Trackable.init n [] [] [],
      Trackable.init n [] [] []], [⟨[(n, 0)], []⟩]⟩ : World).addTrackable 0 1).1 =
      ⟨[{ Trackable.init n [] [] [] with mediators := [0] },
        { Trackable.init (n ++ ['2']) [] [] [] with mediators := [0] },
        Trackable.init n [] [] []], [⟨[(n, 0), (n ++ ['2'], 1)], []⟩]⟩ := by
    have hne : ¬ (n = n ++ ['2']) := by simp
    simp [World.addTrackable, r2, setA, emptyMediator, Trackable.init, hne]
  have e3 : ((⟨[{ Trackable.init n [] [] [] with mediators := [0] },
      { Trackable.init (n ++ ['2']) [] [] [] with mediators := [0] },
      Trackable.init n [] [] []],
      [⟨[(n, 0), (n ++ ['2'], 1)], []⟩]⟩ : World).addTrackable 0 2).1 =
      ⟨[{ Trackable.init n [] [] [] with mediators := [0] },
        { Trackable.init (n ++ ['2']) [] [] [] with mediators := [0] },
        { Trackable.init (n ++ ['3']) [] [] [] with mediators := [0] }],
        [⟨[(n, 0), (n ++ ['2'], 1), (n ++ ['3'], 2)], []⟩]⟩ := by
    have hne1 : ¬ (n = n ++ ['3']) := by simp
    have hne2 : ¬ (n ++ ['2'] = n ++ ['3']) := by simp
    simp [World.addTrackable, r3, setA, emptyMediator, Trackable.init, hne1, hne2]
  simp only [e1, e2, e3]
  constructor
  · rfl
  · rfl

/-- Witness for C2: the concrete requested name `"n"`. -/
theorem C2_nameCollision_witness :
    endsInDigit (str "n") = false ∧
    ((let w0 : World := ⟨[Trackable.init (str "n") [] [] [],
        Trackable.init (str "n") [] [] [], Trackable.init (str "n") [] [] []],
        [emptyMediator]⟩
      let w3 := (((w0.addTrackable 0 0).1.addTrackable 0 1).1.addTrackable 0 2).1
      ((w3.mediators.getD 0 emptyMediator).trackables.map (fun p => p.1)
         = [str "n", str "n" ++ ['2'], str "n" ++ ['3']]) ∧
      w3.trackables.map Trackable.name
         = [str "n", str "n" ++ ['2'], str "n" ++ ['3']]) ∧
     (let u0 : World := ⟨[Trackable.init (str "a1") [] [] [],
        Trackable.init (str "a1") [] [] []], [emptyMediator]⟩
      let u2 := ((u0.addTrackable 0 0).1.addTrackable 0 1).1
      ((u2.mediators.getD 0 emptyMediator).trackables.map (fun p => p.1)
         = [str "a1", str "a2"]) ∧
      u2.trackables.map Trackable.name = [str "a1", str "a2"])) :=
  ⟨by decide, C2_nameCollision (str "n") (by decide)⟩

/-- C3, counterexample.  As stated (for *every* method present on the wrapped
object), the claim fails: `Trackable.invoke` only looks the method up and
calls it; counting and `method_call` notification live in the
`notify_method_call` decorator's wrapper.  For an undecorated method
(`"jump"` below; no method in the repository is decorated), invoking it
succeeds but leaves the state unchanged and emits nothing, so after three
calls `methodCounts` still has no entry for `"jump"` — not `3`. -/
theorem C3_counterexample :
    (lookupA (Trackable.init (str "p") [] [] [(str "jump", fun d => d)]).plain
        (str "jump")).isSome = true ∧
    (Trackable.init (str "p") [] [] [(str "jump", fun d => d)]).invoke
        (str "jump") [] false
      = .ok (Trackable.init (str "p") [] [] [(str "jump", fun d => d)], Option.none) ∧
    lookupA (Trackable.init (str "p") [] [] [(str "jump", fun d => d)]).methods
        (str "jump") = Option.none :=
  ⟨rfl, rfl, rfl⟩

/-- C3 (amended): for a method wrapped with the `notify_method_call`
decorator, three `invoke` calls increment its `methodCounts` entry by three
and, when not silent, emit three `method_call` events in call order (each
carrying that call's arguments); `invoke` of a name absent on the object
raises `AttributeError` (the spec's `NoSuchMethod`). -/
theorem C3_methodCounting :
    (∀ (t : Trackable) (m : PyStr) (body : AttrDict → AttrDict)
        (a1 a2 a3 : List PyValue),
      lookupA t.decorated m = some body →
      hasKey t.dict m = false →
      hasKey (body t.dict) m = false →
      hasKey (body (body t.dict)) m = false →
      ∃ t1 t2 t3 : Trackable,
        t.invoke m a1 false = .ok (t1, some ⟨t.name, m, .callArgs a1, .method_call⟩) ∧
        t1.invoke m a2 false = .ok (t2, some ⟨t.name, m, .callArgs a2, .method_call⟩) ∧
        t2.invoke m a3 false = .ok (t3, some ⟨t.name, m, .callArgs a3, .method_call⟩) ∧
        lookupD t3.methods m 0 = lookupD t.methods m 0 + 3) ∧
    (∀ (t : Trackable) (m : PyStr) (args : List PyValue),
      hasKey t.dict m = false → lookupA t.decorated m = Option.none →
      lookupA t.plain m = Option.none →
      t.invoke m args false = .error .attributeError) := by
  constructor
  · intro t m body a1 a2 a3 hd hk0 hk1 hk2
    refine ⟨_, _, _, invoke_decorated a1 hd hk0,
      invoke_decorated a2 hd hk1, invoke_decorated a3 hd hk2, ?_⟩
    simp only [Trackable.bumpCount, lookupD_setA_self]
  · intro t m args hk hd hp
    unfold Trackable.invoke
    rw [if_neg (by simp [hk]), hd, hp]

/-- Witness for C3 (amended): the decorated method `"jump"` with an identity
body on a fresh trackable, and the absent name `"fly"`. -/
theorem C3_methodCounting_witness :
    (∃ t1 t2 t3 : Trackable,
      (Trackable.init (str "p") [] [(str "jump", fun d => d)] []).invoke
          (str "jump") [] false
        = .ok (t1, some ⟨str "p", str "jump", .callArgs [], .method_call⟩) ∧
      t1.invoke (str "jump") [] false
        = .ok (t2, some ⟨str "p", str "jump", .callArgs [], .method_call⟩) ∧
      t2.invoke (str "jump") [] false
        = .ok (t3, some ⟨str "p", str "jump", .callArgs [], .method_call⟩) ∧
      lookupD t3.methods (str "jump") 0
        = lookupD (Trackable.init (str "p") [] [(str "jump", fun d => d)] []).methods
            (str "jump") 0 + 3) ∧
    (Trackable.init (str "p") [] [(str "jump", fun d => d)] []).invoke
        (str "fly") [] false = .error .attributeError :=
  ⟨C3_methodCounting.1 (Trackable.init (str "p") [] [(str "jump", fun d => d)] [])
      (str "jump") (fun d => d) [] [] [] rfl (by decide) (by decide) (by decide),
    C3_methodCounting.2 (Trackable.init (str "p") [] [(str "jump", fun d => d)] [])
      (str "fly") [] (by decide) rfl rfl⟩

/-- C10: invoking a decorated method with `silent = true` still increments
its `methodCounts` entry by exactly one while emitting no `method_call`
event: `silent` suppresses the notification, not the count. -/
theorem C10_silentCount (t : Trackable) (m : PyStr) (body : AttrDict → AttrDict)
    (args : List PyValue) (hd : lookupA t.decorated m = some body)
    (hk : hasKey t.dict m = false) :
    ∃ t' : Trackable, t.invoke m args true = .ok (t', Option.none) ∧
      lookupD t'.methods m 0 = lookupD t.methods m 0 + 1 := by
  refine ⟨_, invoke_decorated_silent args hd hk, ?_⟩
  show lookupD (setA t.methods m (lookupD t.methods m 0 + 1)) m 0 = _
  rw [lookupD_setA_self]

/-- Witness for C10: a silent invocation of the decorated `"jump"`. -/
theorem C10_silentCount_witness :
    ∃ t' : Trackable,
      (Trackable.init (str "p") [] [(str "jump", fun d => d)] []).invoke
          (str "jump") [] true = .ok (t', Option.none) ∧
      lookupD t'.methods (str "jump") 0
        = lookupD (Trackable.init (str "p") [] [(str "jump", fun d => d)] []).methods
            (str "jump") 0 + 1 :=
  C10_silentCount (Trackable.init (str "p") [] [(str "jump", fun d => d)] [])
    (str "jump") (fun d => d) [] rfl (by decide)

/-- C4, counterexample.  `Mediator.notify` has no exception isolation: with
three observers whose callbacks are set and the second one raising, only
observers 0 and 1 are invoked, the exception escapes, and observer 2 never
receives the event — contradicting "every other registered observer still
receives the event". -/
theorem C4_counterexample :
    Mediator.fanout
        ⟨[], [⟨true, fun _ => false⟩, ⟨true, fun _ => true⟩, ⟨true, fun _ => false⟩]⟩
        ⟨str "t", str "x", .scalar (.int 1), .set_attribute⟩
      = ([0, 1], true) ∧
    (2 : Nat) ∉ ([0, 1] : List Nat) :=
  ⟨rfl, by decide⟩

/-- C4 (amended): an exception in one observer's callback aborts the
fan-out.  When no callback before `o` raises and `o`'s callback raises on
`e`, exactly the callbacks of the observers before `o` and `o`'s own are
invoked, the exception escapes `Mediator.notify`, and no observer after the
raiser is notified. -/
theorem C4_exceptionAbortsFanout (reg : List (PyStr × Nat)) (pre post : List Observer)
    (o : Observer) (e : Event)
    (hpre : ∀ o' ∈ pre, o'.raises e = false)
    (hcb : o.hasCallback = true) (hr : o.raises e = true) :
    Mediator.fanout ⟨reg, pre ++ o :: post⟩ e
      = (cbIdxFrom pre 0 ++ [pre.length], true) ∧
    ∀ j ∈ (Mediator.fanout ⟨reg, pre ++ o :: post⟩ e).1, j ≤ pre.length := by
  have h := fanoutFrom_first_raiser hcb hr pre post 0 hpre
  have h0 : Mediator.fanout ⟨reg, pre ++ o :: post⟩ e
      = (cbIdxFrom pre 0 ++ [pre.length], true) := by
    show fanoutFrom (pre ++ o :: post) 0 e = _
    rw [h]
    simp
  refine ⟨h0, ?_⟩
  intro j hj
  rw [h0] at hj
  rcases List.mem_append.1 hj with hj | hj
  · have := cbIdxFrom_lt hj
    omega
  · have : j = pre.length := by simpa using hj
    omega

/-- Witness for C4 (amended): one returning callback, then a raising one,
then one more observer that is never reached. -/
theorem C4_exceptionAbortsFanout_witness :
    Mediator.fanout
        ⟨[], [⟨true, fun _ => false⟩] ++ ⟨true, fun _ => true⟩ :: [⟨true, fun _ => false⟩]⟩
        ⟨str "t", str "x", .scalar (.int 1), .set_attribute⟩
      = (cbIdxFrom [⟨true, fun _ => false⟩] 0 ++ [[(⟨true, fun _ => false⟩ : Observer)].length],
          true) ∧
    ∀ j ∈ (Mediator.fanout
        ⟨[], [⟨true, fun _ => false⟩] ++ ⟨true, fun _ => true⟩ :: [⟨true, fun _ => false⟩]⟩
        ⟨str "t", str "x", .scalar (.int 1), .set_attribute⟩).1,
      j ≤ [(⟨true, fun _ => false⟩ : Observer)].length :=
  C4_exceptionAbortsFanout [] [⟨true, fun _ => false⟩] [⟨true, fun _ => false⟩]
    ⟨true, fun _ => true⟩ ⟨str "t", str "x", .scalar (.int 1), .set_attribute⟩
    (by intro o' ho'; rw [show o' = ⟨true, fun _ => false⟩ by simpa using ho']) rfl rfl

/-- C5: registering a trackable with fields `{x: 0, y: 100}` with a mediator
that already has one observer delivers to that observer exactly one
`trackable_added` event, whose payload is the `(attributes, methodCounts)`
snapshot pair with attribute snapshot `{x: 0, y: 100}`, and no exception
escapes. -/
theorem C5_snapshotOnRegister :
    ((⟨[Trackable.init (str "T") [(str "x", .int 0), (str "y", .int 100)] [] []],
        [⟨[], [⟨true, fun _ => false⟩]⟩]⟩ : World).addTrackable 0 0).2.1
      = [(0, 0, ⟨str "T", str "T",
          .snapshot [(str "x", .int 0), (str "y", .int 100)] [], .trackable_added⟩)] ∧
    ((⟨[Trackable.init (str "T") [(str "x", .int 0), (str "y", .int 100)] [] []],
        [⟨[], [⟨true, fun _ => false⟩]⟩]⟩ : World).addTrackable 0 0).2.2 = false :=
  ⟨rfl, rfl⟩

/-- C6: `set_attribute` on a name absent from the mediator's registry raises
`KeyError` (the spec's `UnknownTrackable`) synchronously, emits no event, and
leaves the world unchanged. -/
theorem C6_unknownTrackable (w : World) (mid : Nat) (tname key : PyStr) (v : PyValue)
    (silent : Bool) (now : Rat)
    (h : lookupA (w.mediators.getD mid emptyMediator).trackables tname = Option.none) :
    w.setAttribute mid tname key v silent now = .error .keyError ∧
    w.setAttributeW mid tname key v silent now = w := by
  unfold World.setAttributeW World.setAttribute
  rw [h]
  exact ⟨rfl, rfl⟩

/-- Witness for C6: `setAttribute("ghost", "x", 1)` on a mediator with an
empty registry. -/
theorem C6_unknownTrackable_witness :
    (⟨[], [emptyMediator]⟩ : World).setAttribute 0 (str "ghost") (str "x") (.int 1)
        false 0 = .error .keyError ∧
    (⟨[], [emptyMediator]⟩ : World).setAttributeW 0 (str "ghost") (str "x") (.int 1)
        false 0 = ⟨[], [emptyMediator]⟩ :=
  C6_unknownTrackable ⟨[], [emptyMediator]⟩ 0 (str "ghost") (str "x") (.int 1) false 0 rfl

/-- C7, counterexample.  As stated, the invariant fails on the code:
registering a trackable that is already registered renames it (and inserts a
second entry).  Registering the same trackable twice with one mediator leaves
the registry `[("a", t), ("a2", t)]` while the trackable's name is now
`"a2"`: the key `"a"` no longer equals its trackable's name, and the same
trackable occupies two entries of one registry. -/
theorem C7_counterexample :
    ((((⟨[Trackable.init (str "a") [] [] []], [emptyMediator]⟩ : World).addTrackable
        0 0).1.addTrackable 0 0).1.mediators.getD 0 emptyMediator).trackables
      = [(str "a", 0), (str "a2", 0)] ∧
    ((((⟨[Trackable.init (str "a") [] [] []], [emptyMediator]⟩ : World).addTrackable
        0 0).1.addTrackable 0 0).1.trackables.getD 0 dfltTrackable).name = str "a2" ∧
    str "a" ≠ str "a2" ∧
    ¬ (((((⟨[Trackable.init (str "a") [] [] []], [emptyMediator]⟩ : World).addTrackable
        0 0).1.addTrackable 0 0).1.mediators.getD 0 emptyMediator).trackables.map
        (fun p => p.2)).Nodup := by
  refine ⟨rfl, rfl, by decide, by decide⟩

/-- C7 (amended): in every world reachable by broker operations in which
`register` is only ever applied to a trackable not currently present in any
mediator's registry, every registry key equals the current name of the
trackable stored under it, and a trackable appears in at most one entry of
any single mediator's registry.  (Without that restriction the claim is
false: re-registering a registered trackable renames it, leaving a stale key
in the other registry — or a duplicate entry in the same one.) -/
theorem C7_registryInvariant (w : World) (h : Reachable w) :
    ∀ med ∈ w.mediators,
      (∀ p ∈ med.trackables, p.1 = (w.trackables.getD p.2 dfltTrackable).name) ∧
      (med.trackables.map (fun p => p.2)).Nodup := by
  intro med hmed
  rcases inv_of_reachable h med hmed with ⟨hkn, _, htnd⟩
  exact ⟨fun p hp => (hkn p hp).2, htnd⟩

/-- Witness for C7 (amended): the world reached by creating a trackable
`"a"`, creating a mediator, and registering the trackable once; its single
registry entry's key equals the trackable's name and the entry list has no
duplicate trackable. -/
theorem C7_registryInvariant_witness :
    (str "a", 0).1
      = ((((⟨[Trackable.init (str "a") [] [] []], [emptyMediator]⟩ : World).addTrackable
          0 0).1).trackables.getD (str "a", 0).2 dfltTrackable).name ∧
    (((((⟨[Trackable.init (str "a") [] [] []], [emptyMediator]⟩ : World).addTrackable
        0 0).1).mediators.getD 0 emptyMediator).trackables.map (fun p => p.2)).Nodup :=
  have h := C7_registryInvariant _
    (Reachable.step
      (Reachable.step
        (Reachable.step Reachable.init
          (Step.newTrackable ⟨[], []⟩ (str "a") [] [] []))
        (Step.newMediator _ false 0 (fun hc => absurd hc (by decide))))
      (Step.register _ 0 0 (by decide) (by decide) (by
        intro med hmed p hp
        simp [World.newMediator, emptyMediator] at hmed
        subst hmed
        simp at hp)))
    ((((⟨[Trackable.init (str "a") [] [] []], [emptyMediator]⟩ : World).addTrackable
        0 0).1).mediators.getD 0 emptyMediator)
    (List.mem_cons_self _ _)
  ⟨h.1 (str "a", 0) (List.mem_cons_self _ _), h.2⟩

/-- C8: the `with self._lock and trackable.get_lock():` line acquires exactly
one lock.  Lock objects are truthy, so the boolean composition evaluates to
the trackable's lock, and the `with` statement acquires only that: the
mediator's lock is not held during registration. -/
theorem C8_lockIdiom :
    addTrackableHeldLocks = [LockRef.trackableLock] ∧
    LockRef.mediatorLock ∉ addTrackableHeldLocks ∧
    addTrackableHeldLocks.length = 1 := by
  decide

/-- C9: decorating any function with `track_vars` sets the module-level
`global_trackable_declared` flag; every mediator constructed afterwards
automatically registers the shared global tracker (the trackable at index
`gt`) into its registry at construction, under the tracker's current name,
without the constructing caller asking for it. -/
theorem C9_globalTracker (ms : ModuleState) (vars : List PyStr) (w : World) (gt : Nat)
    (_hgt : gt < w.trackables.length) :
    (applyTrackVars ms vars).declared = true ∧
    ((w.newMediator (applyTrackVars ms vars).declared gt).1.mediators.getD
        w.mediators.length emptyMediator).trackables
      = [((w.trackables.getD gt dfltTrackable).name, gt)] := by
  refine ⟨rfl, ?_⟩
  show ((w.newMediator true gt).1.mediators.getD w.mediators.length emptyMediator).trackables
    = _
  have hres : resolveName [] 1 (w.trackables.getD gt dfltTrackable).name
      = (w.trackables.getD gt dfltTrackable).name := by simp [resolveName]
  unfold World.newMediator World.addTrackable
  rw [if_pos rfl]
  simp only [getD_append_self, set_append_self, emptyMediator, List.map_nil,
    List.length_nil, Nat.zero_add, hres, setA]

/-- Witness for C9: a world holding only the global tracker, and a mediator
constructed after a `track_vars("x")` decoration. -/
theorem C9_globalTracker_witness :
    (applyTrackVars initialModule [str "x"]).declared = true ∧
    (((⟨[Trackable.init (str "global_tracker") [] [] []], []⟩ : World).newMediator
        (applyTrackVars initialModule [str "x"]).declared 0).1.mediators.getD
        ([] : List Mediator).length emptyMediator).trackables
      = [(((⟨[Trackable.init (str "global_tracker") [] [] []], []⟩ : World).trackables.getD
          0 dfltTrackable).name, 0)] :=
  C9_globalTracker initialModule [str "x"]
    ⟨[Trackable.init (str "global_tracker") [] [] []], []⟩ 0 (by decide)

end ObjInspect
